import Mathlib

/-!
Shallow embedding of `expediagroup/sdk/core/client/api.py` (`ApiClient`):
header preparation (`__prepare_request_headers`, `__fill_request_headers`),
request dispatch (`call`), and response resolution (`__build_response`).

Python dicts are embedded as association lists (`List (κ × α)`) preserving
insertion order; dict assignment is `insertA` (update in place if the key is
present, else append).  JSON documents are `JData`; a pydantic "shape" is a
function `JData → Option JData` (`none` = ValidationError).  Exceptions are
the inductive `PyExc`; a function that may raise returns `Except PyExc _`.
-/

set_option autoImplicit false

universe u v

/-- A JSON document, the result of `response.json()`. -/
inductive JData : Type where
  | jNull : JData
  | jBool : Bool → JData
  | jNum : Int → JData
  | jStr : String → JData
  | jArr : List JData → JData
  | jObj : List (String × JData) → JData
deriving Repr

/-- Parsed pydantic objects are identified with the JSON data they validate. -/
abbrev PyObject : Type := JData

/-- A candidate response shape: `pydantic.parse_obj_as(model, data)` either
produces an instance (`some`) or raises a ValidationError (`none`). -/
abbrev Model : Type := JData → Option PyObject

/-- Look up a key in an insertion-ordered dict (first binding wins). -/
def lookupA {κ : Type u} {α : Type v} [BEq κ] (l : List (κ × α)) (k : κ) : Option α :=
  (l.find? (fun p => p.1 == k)).map (fun p => p.2)

/-- Does the dict contain the key (`key in d.keys()`). -/
def containsKey {κ : Type u} {α : Type v} [BEq κ] (l : List (κ × α)) (k : κ) : Bool :=
  l.any (fun p => p.1 == k)

/-- Python dict assignment `d[k] = v`: update the existing binding in place,
otherwise append a new binding at the end. -/
def insertA {κ : Type u} {α : Type v} [BEq κ] (l : List (κ × α)) (k : κ) (v : α) : List (κ × α) :=
  if containsKey l k then l.map (fun p => if p.1 == k then (k, v) else p) else l ++ [(k, v)]

/-- A caller-supplied header value.  Structured objects (`pydantic.BaseModel`),
enumeration members and `uuid.UUID` identifiers carry the string that
`json.dumps(value, default=pydantic.schema.pydantic_encoder)` produces for
them; primitive values are carried directly. -/
inductive HVal : Type where
  | vNone : HVal
  | vBool : Bool → HVal
  | vInt : Int → HVal
  | vStr : String → HVal
  | vModel : String → HVal
  | vEnum : String → HVal
  | vUuid : String → HVal
deriving Repr, DecidableEq

/-- Python truthiness of a header value (`not header_value` is the negation).
`None`, `False`, `0` and `""` are falsy; model, plain-enum and UUID instances
are truthy. -/
def HVal.truthy : HVal → Bool
  | .vNone => false
  | .vBool b => b
  | .vInt n => n != 0
  | .vStr s => s != ""
  | .vModel _ => true
  | .vEnum _ => true
  | .vUuid _ => true

/-- `isinstance(v, BaseModel) or isinstance(v, enum.Enum) or isinstance(v, uuid.UUID)`. -/
def needsSerialization : HVal → Bool
  | .vModel _ => true
  | .vEnum _ => true
  | .vUuid _ => true
  | _ => false

/-- The canonical serialized string of a structured/enum/identifier value. -/
def HVal.canonicalString : HVal → String
  | .vModel s => s
  | .vEnum s => s
  | .vUuid s => s
  | _ => ""

/-- The value stored by `__prepare_request_headers`:
`json.dumps(header_value, default=pydantic_encoder) if needs_serialization else header_value`. -/
def serializeIfNeeded (v : HVal) : HVal :=
  if needsSerialization v then .vStr v.canonicalString else v

/-- A header mapping. -/
abbrev HDict : Type := List (String × HVal)

/-- The filtering/serializing loop of `__prepare_request_headers`:
`for header_key, header_value in headers.items(): ...` writing into the fresh
dict `request_headers`. -/
def prepLoop : List (String × HVal) → HDict → HDict
  | [], request_headers => request_headers
  | (k, v) :: rest, request_headers =>
    if v.truthy then prepLoop rest (insertA request_headers k (serializeIfNeeded v))
    else prepLoop rest request_headers

/-- The default-filling loop of `__fill_request_headers`:
`for key, value in header_constant.API_REQUEST.items(): ...`.  The default
set `API_REQUEST` is a parameter `defaults` of the embedding. -/
def fillLoop : List (String × HVal) → HDict → HDict
  | [], request_headers => request_headers
  | (k, v) :: rest, request_headers =>
    if containsKey request_headers k then fillLoop rest request_headers
    else fillLoop rest (insertA request_headers k v)

/-- `ApiClient.__fill_request_headers`.  The Python guard
`if not request_headers: request_headers = dict()` rebinds an empty argument
to a fresh empty dict, which is value-identical. -/
def fill_request_headers (defaults : HDict) (request_headers : HDict) : HDict :=
  fillLoop defaults (if request_headers.isEmpty then [] else request_headers)

/-- `ApiClient.__prepare_request_headers`: build a fresh dict from the truthy
entries of `headers` (serializing structured values), then fill defaults. -/
def prepare_request_headers (defaults : HDict) (headers : HDict) : HDict :=
  fill_request_headers defaults (prepLoop headers [])

/-- Modelled from the spec: the configured success range
`OK_STATUS_CODES_RANGE` (imported from `core.constant.constant`, not part of
the sources here) is the 2xx-equivalent range, membership being
`200 <= code < 300`. -/
def OK_STATUS_CODES_RANGE (code : Nat) : Bool :=
  200 ≤ code && code < 300

/-- The status codes that are members of CPython's `http.HTTPStatus`
enumeration (3.9/3.10); `HTTPStatus(code)` raises `ValueError` for any other
integer. -/
def isStdHTTPStatus (code : Nat) : Bool :=
  [100, 101, 102, 103,
   200, 201, 202, 203, 204, 205, 206, 207, 208, 226,
   300, 301, 302, 303, 304, 305, 307, 308,
   400, 401, 402, 403, 404, 405, 406, 407, 408, 409, 410, 411, 412, 413,
   414, 415, 416, 417, 418, 421, 422, 423, 424, 425, 426, 428, 429, 431, 451,
   500, 501, 502, 503, 504, 505, 506, 507, 508, 510, 511].contains code

/-- An exception escaping `__build_response`. -/
inductive PyExc : Type where
  /-- `response.json()` raised: the body is not valid JSON. -/
  | jsonDecodeError : PyExc
  /-- An unguarded `parse_obj`/`parse_obj_as` on the error path raised. -/
  | validationError : PyExc
  /-- `HTTPStatus(status_code)` raised on a non-standard code. -/
  | valueError : PyExc
  /-- A typed API exception `ctor.of(error=err, error_code=code)`: `ctor`
  identifies the exception class, `err` the parsed error object, `code` the
  HTTP status. -/
  | apiException (ctor : Nat) (err : PyObject) (code : Nat) : PyExc
deriving Repr

/-- Modelled from the spec: the generic exception class
`service_exception.ExpediaGroupApiException` (module not part of the sources
here), identified by a distinguished constructor id. -/
def expediaGroupApiException : Nat := 0

/-- Modelled from the spec: the generic error shape `Error.parse_obj` (module
`core.model.error` not part of the sources here) parses any JSON object body
into the generic structured error and fails validation on non-object bodies. -/
def Error.parse_obj (d : JData) : Option PyObject :=
  match d with
  | .jObj fields => some (.jObj fields)
  | _ => none

/-- An entry of the `error_responses` map: a duck-typed pair of an error body
shape (`.model`) and an exception constructor (`.exception`). -/
structure ErrorResponse : Type where
  model : JData → Option PyObject
  exception : Nat

/-- A raw HTTP response: its status code and the result of `response.json()`
(`none` when the body is not valid JSON, so `.json()` raises). -/
structure Response : Type where
  status_code : Nat
  body : Option JData

/-- The success-path loop of `__build_response`: iterate the candidate models
in order, skip `None` placeholders, try `parse_obj_as(model, response.json())`
returning the first instance produced; every exception (JSON decode or
validation) is swallowed and the next candidate tried. -/
def resolve_models (resp : Response) : List (Option Model) → Option PyObject
  | [] => none
  | none :: rest => resolve_models resp rest
  | some m :: rest =>
    match resp.body with
    | none => resolve_models resp rest
    | some d =>
      match m d with
      | some v => some v
      | none => resolve_models resp rest

/-- The error path of `__build_response` (taken when the status code is not in
the success range): evaluation order follows the source — `response.json()`
first, then the shape parse, then `HTTPStatus(status_code)`, then the typed
exception is constructed and raised. -/
def build_error (resp : Response) (error_responses : List (Nat × ErrorResponse)) : PyExc :=
  match lookupA error_responses resp.status_code with
  | some entry =>
    match resp.body with
    | none => .jsonDecodeError
    | some d =>
      match entry.model d with
      | none => .validationError
      | some errObj =>
        if isStdHTTPStatus resp.status_code then
          .apiException entry.exception errObj resp.status_code
        else .valueError
  | none =>
    match resp.body with
    | none => .jsonDecodeError
    | some d =>
      match Error.parse_obj d with
      | none => .validationError
      | some errObj =>
        if isStdHTTPStatus resp.status_code then
          .apiException expediaGroupApiException errObj resp.status_code
        else .valueError

/-- `ApiClient.__build_response`: raise (return `.error`) on a non-success
status, otherwise resolve the body against the candidate models. -/
def build_response (resp : Response) (response_models : List (Option Model))
    (error_responses : List (Nat × ErrorResponse)) : Except PyExc (Option PyObject) :=
  if OK_STATUS_CODES_RANGE resp.status_code then .ok (resolve_models resp response_models)
  else .error (build_error resp error_responses)

/-- The state of one field of a pydantic request-body model: never set, or set
to a JSON value (`.val .jNull` is a field explicitly set to `None`). -/
inductive FieldState : Type where
  | unset : FieldState
  | val : JData → FieldState

/-- A pydantic request-body model: its fields in declaration order. -/
abbrev PBody : Type := List (String × FieldState)

/-- Is this JSON value the `None`/null value. -/
def JData.isNull : JData → Bool
  | .jNull => true
  | _ => false

/-- Whether `body.json(exclude_none=True, exclude_unset=True)` keeps a field
in this state, and with which value: unset fields are excluded
(`exclude_unset`) and fields set to `None` are excluded (`exclude_none`). -/
def FieldState.keep : FieldState → Option JData
  | .unset => none
  | .val v => if v.isNull then none else some v

/-- `body.json(exclude_none=True, exclude_unset=True)`: the serialized payload
document keeps exactly the fields that were set to a non-null value. -/
def PBody.jsonExcl : PBody → List (String × JData)
  | [] => []
  | (k, st) :: rest =>
    match st.keep with
    | none => PBody.jsonExcl rest
    | some v => (k, v) :: PBody.jsonExcl rest

/-- What `ApiClient.call` hands to `requests.request`: method (uppercased),
URL, prepared headers, and the payload (`none` when no `data=` argument is
passed, i.e. a bodyless request). -/
structure DispatchedRequest : Type where
  method : String
  url : String
  headers : HDict
  data : Option (List (String × JData))

/-- The request-building half of `ApiClient.call` (lines 104–125): prepare the
headers, then dispatch bodyless if `not body`, else with the serialized body.
A pydantic model instance is always truthy, so `not body` holds exactly when
the optional body is absent. -/
def call_request (defaults : HDict) (method : String) (url : String)
    (body : Option PBody) (headers : HDict) : DispatchedRequest :=
  let request_headers := prepare_request_headers defaults headers
  match body with
  | none => { method := method.toUpper, url := url, headers := request_headers, data := none }
  | some b => { method := method.toUpper, url := url, headers := request_headers,
                data := some b.jsonExcl }

/-- `ApiClient.call`, given a transport: build the request, run it, and
resolve the response. -/
def call (defaults : HDict) (transport : DispatchedRequest → Response)
    (method : String) (url : String) (body : Option PBody) (headers : HDict)
    (response_models : List (Option Model)) (error_responses : List (Nat × ErrorResponse)) :
    Except PyExc (Option PyObject) :=
  build_response (transport (call_request defaults method url body headers))
    response_models error_responses

/-!
A heap model for the frame property of header preparation: Python dicts live
in a store (a list of dicts); a reference is an index.  `__prepare_request_headers`
receives a reference to the caller's dict, allocates a fresh dict, writes only
into the fresh dict, and hands it to `__fill_request_headers`, which mutates
its argument in place (or a fresh empty dict when given an empty one).
-/

/-- The heap: dict number `r` is `σ[r]`. -/
abbrev Store : Type := List HDict

/-- Read the dict a reference points to. -/
def storeRead (σ : Store) (r : Nat) : HDict := σ.getD r []

/-- Overwrite the dict a reference points to. -/
def storeWrite (σ : Store) (r : Nat) (d : HDict) : Store := σ.set r d

/-- The loop of `__prepare_request_headers`, writing into dict `rh` on the
store; `entries` are the caller dict's items, read before the loop (the loop
never writes to the caller's dict, so reading them up front is faithful). -/
def prepLoopSt : List (String × HVal) → Store → Nat → Store
  | [], σ, _ => σ
  | (k, v) :: rest, σ, rh =>
    if v.truthy then
      prepLoopSt rest (storeWrite σ rh (insertA (storeRead σ rh) k (serializeIfNeeded v))) rh
    else prepLoopSt rest σ rh

/-- The loop of `__fill_request_headers`, mutating dict `r` in place. -/
def fillLoopSt : List (String × HVal) → Store → Nat → Store
  | [], σ, _ => σ
  | (k, v) :: rest, σ, r =>
    if containsKey (storeRead σ r) k then fillLoopSt rest σ r
    else fillLoopSt rest (storeWrite σ r (insertA (storeRead σ r) k v)) r

/-- `ApiClient.__fill_request_headers` on the store: an empty argument is
rebound to a freshly allocated dict (`if not request_headers: request_headers
= dict()`), so the caller's empty dict is never written; the (possibly fresh)
reference is returned. -/
def fill_request_headers_st (defaults : HDict) (σ : Store) (r : Nat) : Store × Nat :=
  if (storeRead σ r).isEmpty then
    (fillLoopSt defaults (σ ++ [[]]) σ.length, σ.length)
  else (fillLoopSt defaults σ r, r)

/-- `ApiClient.__prepare_request_headers` on the store: allocate the fresh
`request_headers = dict()`, run the filtering loop into it, then fill
defaults; returns the new store and a reference to the result dict. -/
def prepare_request_headers_st (defaults : HDict) (σ : Store) (h : Nat) : Store × Nat :=
  fill_request_headers_st defaults (prepLoopSt (storeRead σ h) (σ ++ [[]]) σ.length) σ.length

/-- The value the filtering loop of `__prepare_request_headers` contributes
for a caller-supplied value: dropped when falsy, serialized when structured. -/
def preparedValue (v : HVal) : Option HVal :=
  if v.truthy then some (serializeIfNeeded v) else none

theorem storeRead_storeWrite_ne (σ : Store) (r h : Nat) (d : HDict) (hne : r ≠ h) :
    storeRead (storeWrite σ r d) h = storeRead σ h := by
  simp only [storeRead, storeWrite, List.getD_eq_getElem?_getD, List.getElem?_set_ne hne]

theorem storeRead_storeWrite_self (σ : Store) (r : Nat) (d : HDict) (hlt : r < σ.length) :
    storeRead (storeWrite σ r d) r = d := by
  simp only [storeRead, storeWrite, List.getD_eq_getElem?_getD,
    List.getElem?_set_self hlt, Option.getD_some]

theorem storeRead_append_lt (σ : Store) (τ : Store) (h : Nat) (hlt : h < σ.length) :
    storeRead (σ ++ τ) h = storeRead σ h := by
  simp only [storeRead, List.getD_eq_getElem?_getD, List.getElem?_append, hlt, if_pos]

theorem storeRead_append_self (σ : Store) (d : HDict) :
    storeRead (σ ++ [d]) σ.length = d := by
  simp [storeRead, List.getD_eq_getElem?_getD]

theorem length_storeWrite (σ : Store) (r : Nat) (d : HDict) :
    (storeWrite σ r d).length = σ.length := List.length_set ..

theorem prepLoopSt_length (entries : List (String × HVal)) (σ : Store) (rh : Nat) :
    (prepLoopSt entries σ rh).length = σ.length := by
  induction entries generalizing σ with
  | nil => rfl
  | cons e rest ih =>
    obtain ⟨k, v⟩ := e
    simp only [prepLoopSt]
    split
    · rw [ih, length_storeWrite]
    · exact ih σ

theorem fillLoopSt_length (defaults : List (String × HVal)) (σ : Store) (r : Nat) :
    (fillLoopSt defaults σ r).length = σ.length := by
  induction defaults generalizing σ with
  | nil => rfl
  | cons e rest ih =>
    obtain ⟨k, v⟩ := e
    simp only [fillLoopSt]
    split
    · exact ih σ
    · rw [ih, length_storeWrite]

theorem prepLoopSt_frame (entries : List (String × HVal)) (σ : Store) (rh h : Nat)
    (hne : h ≠ rh) : storeRead (prepLoopSt entries σ rh) h = storeRead σ h := by
  induction entries generalizing σ with
  | nil => rfl
  | cons e rest ih =>
    obtain ⟨k, v⟩ := e
    simp only [prepLoopSt]
    split
    · rw [ih, storeRead_storeWrite_ne _ _ _ _ (Ne.symm hne)]
    · exact ih σ

theorem fillLoopSt_frame (defaults : List (String × HVal)) (σ : Store) (r h : Nat)
    (hne : h ≠ r) : storeRead (fillLoopSt defaults σ r) h = storeRead σ h := by
  induction defaults generalizing σ with
  | nil => rfl
  | cons e rest ih =>
    obtain ⟨k, v⟩ := e
    simp only [fillLoopSt]
    split
    · exact ih σ
    · rw [ih, storeRead_storeWrite_ne _ _ _ _ (Ne.symm hne)]

theorem prepLoopSt_read_self (entries : List (String × HVal)) (σ : Store) (rh : Nat)
    (hlt : rh < σ.length) :
    storeRead (prepLoopSt entries σ rh) rh = prepLoop entries (storeRead σ rh) := by
  induction entries generalizing σ with
  | nil => rfl
  | cons e rest ih =>
    obtain ⟨k, v⟩ := e
    simp only [prepLoopSt, prepLoop]
    split
    · rw [ih _ (by rw [length_storeWrite]; exact hlt), storeRead_storeWrite_self _ _ _ hlt]
    · exact ih σ hlt

theorem fillLoopSt_read_self (defaults : List (String × HVal)) (σ : Store) (r : Nat)
    (hlt : r < σ.length) :
    storeRead (fillLoopSt defaults σ r) r = fillLoop defaults (storeRead σ r) := by
  induction defaults generalizing σ with
  | nil => rfl
  | cons e rest ih =>
    obtain ⟨k, v⟩ := e
    simp only [fillLoopSt, fillLoop]
    split
    · exact ih σ hlt
    · rw [ih _ (by rw [length_storeWrite]; exact hlt), storeRead_storeWrite_self _ _ _ hlt]

/-- The stateful and the functional embeddings of header preparation agree:
the dict the returned reference points to is `prepare_request_headers`. -/
theorem prepare_request_headers_st_correct (defaults : HDict) (σ : Store) (h : Nat) :
    storeRead (prepare_request_headers_st defaults σ h).1 (prepare_request_headers_st defaults σ h).2
      = prepare_request_headers defaults (storeRead σ h) := by
  have hfresh : σ.length < (σ ++ [[]]).length := by simp
  have hread : storeRead (prepLoopSt (storeRead σ h) (σ ++ [[]]) σ.length) σ.length
      = prepLoop (storeRead σ h) [] := by
    rw [prepLoopSt_read_self _ _ _ hfresh, storeRead_append_self]
  simp only [prepare_request_headers_st, fill_request_headers_st, hread,
    prepare_request_headers, fill_request_headers]
  split
  · rw [fillLoopSt_read_self _ _ _ (by simp), storeRead_append_self]
  · rw [fillLoopSt_read_self _ _ _ (by rw [prepLoopSt_length]; simp), hread]

/-!
Lookup characterization of header preparation.
-/

theorem containsKey_iff_mem_keys {α : Type u} (l : List (String × α)) (k : String) :
    containsKey l k = true ↔ k ∈ l.map Prod.fst := by
  simp [containsKey, List.any_eq_true]

theorem lookupA_nil {α : Type u} (k : String) : lookupA ([] : List (String × α)) k = none := rfl

theorem lookupA_cons {α : Type u} (k' : String) (v' : α) (rest : List (String × α)) (k : String) :
    lookupA ((k', v') :: rest) k = if k' = k then some v' else lookupA rest k := by
  by_cases h : k' = k
  · subst h
    simp [lookupA, List.find?]
  · have hb : (k' == k) = false := beq_eq_false_iff_ne.mpr h
    simp [lookupA, List.find?, hb, h]

theorem lookupA_eq_none_of_not_mem {α : Type u} (l : List (String × α)) (k : String)
    (h : k ∉ l.map Prod.fst) : lookupA l k = none := by
  induction l with
  | nil => rfl
  | cons p rest ih =>
    obtain ⟨k', v'⟩ := p
    simp only [List.map_cons, List.mem_cons, not_or] at h
    rw [lookupA_cons, if_neg (Ne.symm h.1), ih h.2]

theorem lookupA_isSome_of_contains {α : Type u} (l : List (String × α)) (k : String)
    (h : containsKey l k = true) : (lookupA l k).isSome = true := by
  induction l with
  | nil => simp [containsKey] at h
  | cons p rest ih =>
    obtain ⟨k', v'⟩ := p
    rw [lookupA_cons]
    by_cases hk : k' = k
    · simp [hk]
    · simp only [if_neg hk]
      apply ih
      simp only [containsKey, List.any_cons, Bool.or_eq_true, beq_iff_eq] at h ⊢
      exact h.resolve_left hk

theorem lookupA_append {α : Type u} (l₁ l₂ : List (String × α)) (k : String) :
    lookupA (l₁ ++ l₂) k = (lookupA l₁ k).or (lookupA l₂ k) := by
  induction l₁ with
  | nil => simp [lookupA_nil, Option.none_or]
  | cons p rest ih =>
    obtain ⟨k', v'⟩ := p
    rw [List.cons_append, lookupA_cons, lookupA_cons]
    by_cases hk : k' = k
    · simp [hk, Option.or_some]
    · simp only [if_neg hk, ih]

theorem insertA_of_not_contains {α : Type u} (l : List (String × α)) (k : String) (v : α)
    (h : containsKey l k = false) : insertA l k v = l ++ [(k, v)] := by
  simp [insertA, h]

theorem lookupA_fillLoop (defaults rh : HDict) (k : String) :
    lookupA (fillLoop defaults rh) k = (lookupA rh k).or (lookupA defaults k) := by
  induction defaults generalizing rh with
  | nil => simp [fillLoop, lookupA_nil, Option.or_none]
  | cons p rest ih =>
    obtain ⟨k', v'⟩ := p
    simp only [fillLoop]
    by_cases hc : containsKey rh k' = true
    · rw [if_pos hc, ih, lookupA_cons]
      by_cases hk : k' = k
      · subst hk
        obtain ⟨x, hx⟩ := Option.isSome_iff_exists.mp (lookupA_isSome_of_contains rh k' hc)
        simp [hx, Option.or_some]
      · rw [if_neg hk]
    · rw [if_neg hc, insertA_of_not_contains _ _ _ (by simpa using hc), ih,
        lookupA_append, Option.or_assoc, lookupA_cons, lookupA_cons]
      by_cases hk : k' = k
      · subst hk
        simp [lookupA, List.find?]
      · simp only [if_neg hk, lookupA]
        simp [List.find?, hk]

theorem lookupA_prepLoop (headers : List (String × HVal)) (acc : HDict) (k : String)
    (hnd : (headers.map Prod.fst).Nodup)
    (hdisj : ∀ a ∈ acc.map Prod.fst, a ∉ headers.map Prod.fst) :
    lookupA (prepLoop headers acc) k
      = (lookupA acc k).or ((lookupA headers k).bind preparedValue) := by
  induction headers generalizing acc with
  | nil => simp [prepLoop, Option.or_none, lookupA]
  | cons p rest ih =>
    obtain ⟨k₀, v₀⟩ := p
    simp only [List.map_cons, List.nodup_cons] at hnd
    have hdisj' : ∀ a ∈ acc.map Prod.fst, a ∉ rest.map Prod.fst := by
      intro a ha
      have := hdisj a ha
      simp only [List.map_cons, List.mem_cons, not_or] at this
      exact this.2
    have hacc : containsKey acc k₀ = false := by
      rw [Bool.eq_false_iff]
      intro hc
      exact (hdisj k₀ ((containsKey_iff_mem_keys acc k₀).mp hc)) (by simp)
    simp only [prepLoop]
    by_cases ht : v₀.truthy = true
    · rw [if_pos ht, insertA_of_not_contains _ _ _ hacc,
        ih _ hnd.2 (by
          intro a ha
          simp only [List.map_append, List.mem_append, List.map_cons, List.mem_singleton] at ha
          rcases ha with ha | ha
          · exact hdisj' a ha
          · simp only [List.map_nil, List.mem_cons, List.not_mem_nil, or_false] at ha
            subst ha
            exact hnd.1),
        lookupA_append, Option.or_assoc, lookupA_cons, lookupA_cons]
      by_cases hk : k₀ = k
      · subst hk
        rw [lookupA_eq_none_of_not_mem rest _ hnd.1]
        simp [lookupA, List.find?, preparedValue, ht]
      · simp only [if_neg hk, lookupA]
        simp [List.find?, hk]
    · rw [if_neg ht, ih _ hnd.2 hdisj', lookupA_cons]
      by_cases hk : k₀ = k
      · subst hk
        rw [lookupA_eq_none_of_not_mem rest _ hnd.1]
        simp [preparedValue, ht]
      · rw [if_neg hk]

theorem if_isEmpty_eq_self {α : Type u} (l : List α) : (if l.isEmpty then ([] : List α) else l) = l := by
  cases l <;> simp

/-- Complete lookup characterization of `__prepare_request_headers` composed
with `__fill_request_headers`: a truthy caller entry survives (serialized if
structured), a falsy or absent caller entry defers to the default set. -/
theorem lookupA_prepare_request_headers (defaults headers : HDict) (k : String)
    (hnd : (headers.map Prod.fst).Nodup) :
    lookupA (prepare_request_headers defaults headers) k
      = match lookupA headers k with
        | some v => if v.truthy then some (serializeIfNeeded v) else lookupA defaults k
        | none => lookupA defaults k := by
  rw [prepare_request_headers, fill_request_headers, if_isEmpty_eq_self, lookupA_fillLoop,
    lookupA_prepLoop headers [] k hnd (by simp)]
  cases hv : lookupA headers k with
  | none => simp [lookupA, Option.none_or]
  | some v =>
    by_cases ht : v.truthy = true
    · simp [lookupA, preparedValue, ht, Option.none_or]
    · simp [lookupA, preparedValue, ht, Option.none_or]

/-!
Payload serialization and success-path resolution helpers.
-/

theorem JData.isNull_eq_true_iff (d : JData) : d.isNull = true ↔ d = .jNull := by
  cases d <;> simp [JData.isNull]

theorem jsonExcl_keys_subset (b : PBody) (k : String)
    (h : k ∈ (PBody.jsonExcl b).map Prod.fst) : k ∈ b.map Prod.fst := by
  induction b with
  | nil => simp [PBody.jsonExcl] at h
  | cons p rest ih =>
    obtain ⟨k₀, st⟩ := p
    simp only [PBody.jsonExcl] at h
    cases hkeep : st.keep with
    | none =>
      rw [hkeep] at h
      exact List.mem_cons_of_mem _ (ih h)
    | some v =>
      rw [hkeep] at h
      simp only [List.map_cons, List.mem_cons] at h ⊢
      exact h.imp id ih

theorem lookupA_jsonExcl (b : PBody) (k : String) (hnd : (b.map Prod.fst).Nodup) :
    lookupA (PBody.jsonExcl b) k = (lookupA b k).bind FieldState.keep := by
  induction b with
  | nil => rfl
  | cons p rest ih =>
    obtain ⟨k₀, st⟩ := p
    simp only [List.map_cons, List.nodup_cons] at hnd
    simp only [PBody.jsonExcl]
    cases hkeep : st.keep with
    | none =>
      rw [ih hnd.2, lookupA_cons]
      by_cases hk : k₀ = k
      · subst hk
        rw [lookupA_eq_none_of_not_mem rest _ hnd.1, if_pos rfl]
        simp [hkeep]
      · rw [if_neg hk]
    | some v =>
      rw [lookupA_cons, lookupA_cons, ih hnd.2]
      by_cases hk : k₀ = k
      · simp [hk, hkeep]
      · simp [hk]

theorem resolve_models_all_fail (resp : Response) (models : List (Option Model))
    (h : ∀ m, some m ∈ models → ∀ d, resp.body = some d → m d = none) :
    resolve_models resp models = none := by
  induction models with
  | nil => rfl
  | cons mo rest ih =>
    have hrest : ∀ m, some m ∈ rest → ∀ d, resp.body = some d → m d = none :=
      fun m hm => h m (List.mem_cons_of_mem _ hm)
    cases mo with
    | none => simpa [resolve_models] using ih hrest
    | some m =>
      cases hb : resp.body with
      | none => simpa [resolve_models, hb] using ih hrest
      | some d =>
        have hm : m d = none := h m (List.mem_cons_self _ _) d hb
        simpa [resolve_models, hb, hm] using ih hrest

/-!
Claim theorems.
-/

/-- C1: response resolution raises an exception if and only if the status
code lies outside the configured success range; on a non-success status the
outcome does not depend on the candidate response models (no candidate is
ever attempted), and on a success status resolution returns a value rather
than raising (candidate decode failures only make the value empty). -/
theorem build_response_raises_iff_not_ok (resp : Response) (models : List (Option Model))
    (ers : List (Nat × ErrorResponse)) :
    ((∃ e, build_response resp models ers = .error e)
        ↔ OK_STATUS_CODES_RANGE resp.status_code = false)
    ∧ (OK_STATUS_CODES_RANGE resp.status_code = false →
        ∀ models', build_response resp models ers = build_response resp models' ers)
    ∧ (OK_STATUS_CODES_RANGE resp.status_code = true →
        ∃ v, build_response resp models ers = .ok v) := by
  refine ⟨⟨?_, ?_⟩, ?_, ?_⟩
  · rintro ⟨e, he⟩
    by_contra hok
    rw [Bool.not_eq_false] at hok
    simp [build_response, hok] at he
  · intro hnot
    exact ⟨build_error resp ers, by simp [build_response, hnot]⟩
  · intro hnot models'
    simp [build_response, hnot]
  · intro hok
    exact ⟨resolve_models resp models, by simp [build_response, hok]⟩

theorem build_response_raises_iff_not_ok_witness :
    (∃ e, build_response ⟨404, some (.jObj [])⟩ [] [] = .error e)
    ∧ build_response ⟨404, some (.jObj [])⟩ [] []
        = build_response ⟨404, some (.jObj [])⟩ [some (fun d => some d)] []
    ∧ (∃ v, build_response ⟨200, some (.jObj [])⟩ [] [] = .ok v) := by
  refine ⟨?_, ?_, ?_⟩
  · exact (build_response_raises_iff_not_ok ⟨404, some (.jObj [])⟩ [] []).1.mpr rfl
  · exact (build_response_raises_iff_not_ok ⟨404, some (.jObj [])⟩ [] []).2.1 rfl _
  · exact (build_response_raises_iff_not_ok ⟨200, some (.jObj [])⟩ [] []).2.2 rfl

/-- C2: on a non-success status whose code is a standard HTTPStatus member
and whose body is valid JSON: with a registered error-map entry whose shape
parses the body, the raised exception is built by that entry's exception
constructor and carries the parsed error and the response's status code;
without a registered entry, the raised exception is the generic API exception
type carrying the generically parsed body and the same status code. -/
theorem build_response_error_mapping (resp : Response) (models : List (Option Model))
    (ers : List (Nat × ErrorResponse)) (d : JData)
    (hnot : OK_STATUS_CODES_RANGE resp.status_code = false)
    (hbody : resp.body = some d)
    (hstd : isStdHTTPStatus resp.status_code = true) :
    (∀ entry err, lookupA ers resp.status_code = some entry → entry.model d = some err →
      build_response resp models ers
        = .error (.apiException entry.exception err resp.status_code))
    ∧ (∀ err, lookupA ers resp.status_code = none → Error.parse_obj d = some err →
      build_response resp models ers
        = .error (.apiException expediaGroupApiException err resp.status_code)) := by
  constructor
  · intro entry err hreg hparse
    simp [build_response, hnot, build_error, hreg, hbody, hparse, hstd]
  · intro err hreg hparse
    simp [build_response, hnot, build_error, hreg, hbody, hparse, hstd]

theorem build_response_error_mapping_witness :
    build_response ⟨404, some (.jObj [("message", .jStr "missing")])⟩ []
        [(404, ⟨Error.parse_obj, 7⟩)]
      = .error (.apiException 7 (.jObj [("message", .jStr "missing")]) 404)
    ∧ build_response ⟨500, some (.jObj [])⟩ [] []
      = .error (.apiException expediaGroupApiException (.jObj []) 500) := by
  constructor
  · exact (build_response_error_mapping ⟨404, some (.jObj [("message", .jStr "missing")])⟩ []
      [(404, ⟨Error.parse_obj, 7⟩)] (.jObj [("message", .jStr "missing")]) rfl rfl rfl).1
      ⟨Error.parse_obj, 7⟩ (.jObj [("message", .jStr "missing")]) rfl rfl
  · exact (build_response_error_mapping ⟨500, some (.jObj [])⟩ [] []
      (.jObj []) rfl rfl rfl).2 (.jObj []) rfl rfl

/-- C9 as stated is false: with the non-success, non-standard status code 599
but a body that is not valid JSON, resolution raises the JSON decode error
rather than the ValueError from HTTPStatus construction, because
`response.json()` runs before `HTTPStatus(status_code)`. -/
theorem nonstandard_status_counterexample :
    isStdHTTPStatus 599 = false
    ∧ OK_STATUS_CODES_RANGE 599 = false
    ∧ build_response ⟨599, none⟩ [] [] = .error .jsonDecodeError
    ∧ PyExc.jsonDecodeError ≠ .valueError :=
  ⟨rfl, rfl, rfl, fun h => nomatch h⟩

/-- C9 amended: on a non-success status whose code is not a standard
HTTPStatus member, provided the body is valid JSON and the relevant error
shape (registered or generic) parses it, resolution raises a ValueError from
HTTPStatus construction instead of the registered or generic typed API
exception. -/
theorem nonstandard_status_raises_valueError (resp : Response)
    (models : List (Option Model)) (ers : List (Nat × ErrorResponse)) (d : JData)
    (hnot : OK_STATUS_CODES_RANGE resp.status_code = false)
    (hstd : isStdHTTPStatus resp.status_code = false)
    (hbody : resp.body = some d)
    (hreg : ∀ entry, lookupA ers resp.status_code = some entry → (entry.model d).isSome)
    (hgen : lookupA ers resp.status_code = none → (Error.parse_obj d).isSome) :
    build_response resp models ers = .error .valueError := by
  cases hx : lookupA ers resp.status_code with
  | none =>
    obtain ⟨err, herr⟩ := Option.isSome_iff_exists.mp (hgen hx)
    simp [build_response, hnot, build_error, hx, hbody, herr, hstd]
  | some entry =>
    obtain ⟨err, herr⟩ := Option.isSome_iff_exists.mp (hreg entry hx)
    simp [build_response, hnot, build_error, hx, hbody, herr, hstd]

theorem nonstandard_status_raises_valueError_witness :
    build_response ⟨599, some (.jObj [])⟩ [] [] = .error .valueError :=
  nonstandard_status_raises_valueError ⟨599, some (.jObj [])⟩ [] [] (.jObj [])
    rfl rfl rfl (fun _ h => nomatch h) (fun _ => rfl)

/-- C10: on a non-success status whose body is not valid JSON, the JSON
decode error propagates out of response resolution and no typed API exception
is raised, whether or not the status code is registered in the error map. -/
theorem error_path_json_decode_propagates (resp : Response)
    (models : List (Option Model)) (ers : List (Nat × ErrorResponse))
    (hnot : OK_STATUS_CODES_RANGE resp.status_code = false)
    (hbody : resp.body = none) :
    build_response resp models ers = .error .jsonDecodeError
    ∧ ∀ ctor err code, build_response resp models ers ≠ .error (.apiException ctor err code) := by
  have hmain : build_response resp models ers = .error .jsonDecodeError := by
    cases hx : lookupA ers resp.status_code with
    | none => simp [build_response, hnot, build_error, hx, hbody]
    | some entry => simp [build_response, hnot, build_error, hx, hbody]
  refine ⟨hmain, ?_⟩
  intro ctor err code hcontra
  rw [hmain] at hcontra
  exact nomatch hcontra

theorem error_path_json_decode_propagates_witness :
    build_response ⟨500, none⟩ [] [(500, ⟨Error.parse_obj, 7⟩)] = .error .jsonDecodeError :=
  (error_path_json_decode_propagates ⟨500, none⟩ [] [(500, ⟨Error.parse_obj, 7⟩)] rfl rfl).1

/-- C4: on a success status, resolution iterates the candidates in list
order: a None placeholder is skipped; the first candidate that parses the
JSON body yields the returned instance; a candidate whose parse fails is
swallowed and the rest of the list decides the outcome; and when no candidate
parses (including when every candidate is None or the body is unparseable)
the result is empty with no exception raised. -/
theorem resolve_first_match (resp : Response) (ers : List (Nat × ErrorResponse))
    (hok : OK_STATUS_CODES_RANGE resp.status_code = true) :
    (∀ rest, build_response resp (none :: rest) ers = build_response resp rest ers)
    ∧ (∀ (m : Model) (rest : List (Option Model)) (d : JData) (v : PyObject),
        resp.body = some d → m d = some v →
        build_response resp (some m :: rest) ers = .ok (some v))
    ∧ (∀ (m : Model) (rest : List (Option Model)),
        (∀ d, resp.body = some d → m d = none) →
        build_response resp (some m :: rest) ers = build_response resp rest ers)
    ∧ (∀ models : List (Option Model),
        (∀ m, some m ∈ models → ∀ d, resp.body = some d → m d = none) →
        build_response resp models ers = .ok none) := by
  refine ⟨?_, ?_, ?_, ?_⟩
  · intro rest
    simp [build_response, hok, resolve_models]
  · intro m rest d v hbody hm
    simp [build_response, hok, resolve_models, hbody, hm]
  · intro m rest hfail
    cases hbody : resp.body with
    | none => simp [build_response, hok, resolve_models, hbody]
    | some d => simp [build_response, hok, resolve_models, hbody, hfail d hbody]
  · intro models hall
    simp [build_response, hok, resolve_models_all_fail resp models hall]

theorem resolve_first_match_witness :
    build_response ⟨200, some (.jStr "B")⟩ [none] []
        = build_response ⟨200, some (.jStr "B")⟩ [] []
    ∧ build_response ⟨200, some (.jStr "B")⟩ [some (fun d => some d)] []
        = .ok (some (.jStr "B"))
    ∧ build_response ⟨200, some (.jStr "B")⟩ [some (fun _ => none), some (fun d => some d)] []
        = build_response ⟨200, some (.jStr "B")⟩ [some (fun d => some d)] []
    ∧ build_response ⟨200, some (.jStr "B")⟩ [some (fun _ => none)] [] = .ok none := by
  refine ⟨?_, ?_, ?_, ?_⟩
  · exact (resolve_first_match ⟨200, some (.jStr "B")⟩ [] rfl).1 []
  · exact (resolve_first_match ⟨200, some (.jStr "B")⟩ [] rfl).2.1
      (fun d => some d) [] (.jStr "B") (.jStr "B") rfl rfl
  · exact (resolve_first_match ⟨200, some (.jStr "B")⟩ [] rfl).2.2.1
      (fun _ => none) [some (fun d => some d)] (fun _ _ => rfl)
  · refine (resolve_first_match ⟨200, some (.jStr "B")⟩ [] rfl).2.2.2
      [some (fun _ => none)] ?_
    intro m hm d _
    simp only [List.mem_singleton, Option.some.injEq] at hm
    subst hm
    rfl

/-- C3 as stated is false: a caller-supplied key bound to a falsy value (here
the empty string) does not appear in the prepared mapping at all, and a
caller-supplied structured value does not appear unchanged but serialized. -/
theorem prepare_merge_counterexample :
    lookupA [("a", HVal.vStr ""), ("b", HVal.vModel "{}")] "a" = some (.vStr "")
    ∧ lookupA (prepare_request_headers [] [("a", .vStr ""), ("b", .vModel "{}")]) "a" = none
    ∧ lookupA (prepare_request_headers [] [("a", .vStr ""), ("b", .vModel "{}")]) "b"
        = some (.vStr "{}")
    ∧ HVal.vStr "{}" ≠ HVal.vModel "{}" := by
  refine ⟨by decide, by decide, by decide, by decide⟩

/-- C3 amended: the prepared mapping contains every key of H whose value is
truthy, bound to its prepared value (serialized when structured/enum/UUID,
otherwise unchanged); a key of H with a falsy value is dropped and, exactly
like a key absent from H, is filled from the default set D when D defines it;
no other keys appear.  In particular a truthy caller-supplied entry is never
overwritten by a default. -/
theorem prepare_merge_amended (defaults headers : HDict) (k : String)
    (hnd : (headers.map Prod.fst).Nodup) :
    lookupA (prepare_request_headers defaults headers) k
      = match lookupA headers k with
        | some v => if v.truthy then some (serializeIfNeeded v) else lookupA defaults k
        | none => lookupA defaults k :=
  lookupA_prepare_request_headers defaults headers k hnd

theorem prepare_merge_amended_witness :
    lookupA (prepare_request_headers [("d", .vStr "dv")] [("a", .vStr "x")]) "a"
        = some (.vStr "x")
    ∧ lookupA (prepare_request_headers [("d", .vStr "dv")] [("a", .vStr "x")]) "d"
        = some (.vStr "dv") := by
  constructor
  · exact (prepare_merge_amended [("d", .vStr "dv")] [("a", .vStr "x")] "a"
      (by decide)).trans (by decide)
  · exact (prepare_merge_amended [("d", .vStr "dv")] [("a", .vStr "x")] "d"
      (by decide)).trans (by decide)

/-- C5 as stated is false: when a key supplied with value None is also a key
of the default set, the key does appear in the final merged mapping, filled
with the default value. -/
theorem none_header_counterexample :
    lookupA [("k", HVal.vNone)] "k" = some .vNone
    ∧ lookupA (prepare_request_headers [("k", .vStr "default")] [("k", .vNone)]) "k"
        = some (.vStr "default") := by
  refine ⟨by decide, by decide⟩

/-- C5 amended: an entry with None value is dropped from the caller's
contribution, so the final mapping treats its key exactly as if the caller
had not supplied it: the key is absent unless the default set defines it, in
which case it carries the default value. -/
theorem none_header_defers_to_defaults (defaults headers : HDict) (k : String)
    (hnd : (headers.map Prod.fst).Nodup)
    (hv : lookupA headers k = some .vNone) :
    lookupA (prepare_request_headers defaults headers) k = lookupA defaults k := by
  rw [lookupA_prepare_request_headers defaults headers k hnd, hv]
  simp [HVal.truthy]

theorem none_header_defers_to_defaults_witness :
    lookupA (prepare_request_headers [] [("k", .vNone)]) "k" = lookupA ([] : HDict) "k" :=
  none_header_defers_to_defaults [] [("k", .vNone)] "k" (by decide) (by decide)

/-- C7 as stated is false: a non-None caller-supplied value that is falsy
(here the empty string) does not pass through to the prepared mapping; it is
dropped. -/
theorem passthrough_counterexample :
    lookupA [("k", HVal.vStr "")] "k" = some (.vStr "")
    ∧ HVal.vStr "" ≠ .vNone
    ∧ lookupA (prepare_request_headers [] [("k", .vStr "")]) "k" = none := by
  refine ⟨by decide, by decide, by decide⟩

/-- C7 amended: a truthy caller-supplied header value that is a structured
object, enumeration member or UUID identifier appears in the prepared mapping
serialized to its canonical string form; every other truthy value passes
through unchanged; falsy values (None, and likewise empty strings, zero and
False) are dropped from the caller's contribution. -/
theorem header_serialization_amended (defaults headers : HDict) (k : String) (v : HVal)
    (hnd : (headers.map Prod.fst).Nodup)
    (hv : lookupA headers k = some v) :
    (v.truthy = true → needsSerialization v = true →
      lookupA (prepare_request_headers defaults headers) k = some (.vStr v.canonicalString))
    ∧ (v.truthy = true → needsSerialization v = false →
      lookupA (prepare_request_headers defaults headers) k = some v)
    ∧ (v.truthy = false →
      lookupA (prepare_request_headers defaults headers) k = lookupA defaults k) := by
  rw [lookupA_prepare_request_headers defaults headers k hnd, hv]
  refine ⟨?_, ?_, ?_⟩
  · intro ht hser
    simp [ht, serializeIfNeeded, hser]
  · intro ht hser
    simp [ht, serializeIfNeeded, hser]
  · intro ht
    simp [ht]

theorem header_serialization_amended_witness :
    lookupA (prepare_request_headers [] [("u", .vUuid "123e4567")]) "u"
        = some (.vStr (HVal.canonicalString (.vUuid "123e4567")))
    ∧ lookupA (prepare_request_headers [] [("s", .vStr "x")]) "s" = some (.vStr "x")
    ∧ lookupA (prepare_request_headers [] [("z", .vInt 0)]) "z" = lookupA ([] : HDict) "z" := by
  refine ⟨?_, ?_, ?_⟩
  · exact (header_serialization_amended [] [("u", .vUuid "123e4567")] "u" (.vUuid "123e4567")
      (by decide) (by decide)).1 rfl rfl
  · exact (header_serialization_amended [] [("s", .vStr "x")] "s" (.vStr "x")
      (by decide) (by decide)).2.1 (by decide) rfl
  · exact (header_serialization_amended [] [("z", .vInt 0)] "z" (.vInt 0)
      (by decide) (by decide)).2.2 (by decide)

/-- C6: a call with an absent/falsy body dispatches a request carrying no
payload; a call with a body dispatches as payload the body serialized with
`exclude_none`/`exclude_unset` semantics — the payload binds exactly the
fields explicitly set to a non-null value, each to that value. -/
theorem call_body_serialization (defaults : HDict) (method url : String) (headers : HDict)
    (b : PBody) (hnd : (b.map Prod.fst).Nodup) :
    (call_request defaults method url none headers).data = none
    ∧ (call_request defaults method url (some b) headers).data = some b.jsonExcl
    ∧ (∀ k v, lookupA b.jsonExcl k = some v
        ↔ (lookupA b k = some (.val v) ∧ v ≠ .jNull)) := by
  refine ⟨rfl, rfl, ?_⟩
  intro k v
  rw [lookupA_jsonExcl b k hnd]
  cases hb : lookupA b k with
  | none => simp
  | some st =>
    cases st with
    | unset => simp [FieldState.keep]
    | val w =>
      by_cases hw : w.isNull = true
      · have hwn : w = .jNull := (JData.isNull_eq_true_iff w).mp hw
        subst hwn
        constructor
        · intro h
          exact nomatch h
        · rintro ⟨h, hne⟩
          injection h with h1
          injection h1 with h2
          exact absurd h2.symm hne
      · have hwne : w ≠ .jNull := fun hh => hw (by rw [hh]; rfl)
        have hkeep : FieldState.keep (.val w) = some w := by
          simp [FieldState.keep, hw]
        show FieldState.keep (.val w) = some v ↔ _
        rw [hkeep]
        constructor
        · intro h
          injection h with h1
          subst h1
          exact ⟨rfl, hwne⟩
        · rintro ⟨h, _⟩
          injection h with h1
          injection h1 with h2
          rw [h2]

theorem call_body_serialization_witness :
    (call_request [] "get" "u" none []).data = none
    ∧ (call_request [] "get" "u"
        (some [("a", .val (.jStr "x")), ("b", .val .jNull), ("c", .unset)]) []).data
      = some [("a", JData.jStr "x")]
    ∧ (lookupA (PBody.jsonExcl [("a", .val (.jStr "x")), ("b", .val .jNull), ("c", .unset)]) "a"
        = some (.jStr "x")) := by
  refine ⟨?_, ?_, ?_⟩
  · exact (call_body_serialization [] "get" "u" []
      [("a", .val (.jStr "x")), ("b", .val .jNull), ("c", .unset)] (by decide)).1
  · exact ((call_body_serialization [] "get" "u" []
      [("a", .val (.jStr "x")), ("b", .val .jNull), ("c", .unset)] (by decide)).2.1).trans rfl
  · exact ((call_body_serialization [] "get" "u" []
      [("a", .val (.jStr "x")), ("b", .val .jNull), ("c", .unset)] (by decide)).2.2
      "a" (.jStr "x")).mpr ⟨rfl, fun h => nomatch h⟩

/-- C8: header preparation has no side effect beyond producing the new
mapping: in the heap model, after `__prepare_request_headers` runs on a
reference to the caller's dict, the caller's dict is unchanged — all writes
go to freshly allocated dicts. -/
theorem prepare_request_headers_no_side_effect (defaults : HDict) (σ : Store) (h : Nat)
    (hlt : h < σ.length) :
    storeRead ((prepare_request_headers_st defaults σ h).1) h = storeRead σ h := by
  have hne : h ≠ σ.length := Nat.ne_of_lt hlt
  have hσ2len : (prepLoopSt (storeRead σ h) (σ ++ [[]]) σ.length).length = σ.length + 1 := by
    rw [prepLoopSt_length]
    simp
  have hread2 : storeRead (prepLoopSt (storeRead σ h) (σ ++ [[]]) σ.length) h
      = storeRead σ h := by
    rw [prepLoopSt_frame _ _ _ _ hne, storeRead_append_lt _ _ _ hlt]
  simp only [prepare_request_headers_st, fill_request_headers_st]
  split
  · dsimp only
    rw [fillLoopSt_frame _ _ _ _ (by omega), storeRead_append_lt _ _ _ (by omega), hread2]
  · dsimp only
    rw [fillLoopSt_frame _ _ _ _ hne, hread2]

theorem prepare_request_headers_no_side_effect_witness :
    storeRead ((prepare_request_headers_st [("d", .vStr "dv")] [[("a", .vStr "x")]] 0).1) 0
      = [("a", HVal.vStr "x")] := by
  exact (prepare_request_headers_no_side_effect [("d", .vStr "dv")] [[("a", .vStr "x")]] 0
    (by decide)).trans (by decide)
